import Mathlib

/-!
Verification of the `granular-cache-map` library: a fixed-capacity sharded
cache (`src/lib.rs`) together with its batched-write accumulator
(`src/write_batch.rs`).

The embedding is a single-threaded, functional model of the Rust code.
Rust strings are modelled as `List Char`; the `RwLock`/`Mutex` machinery is
flattened into explicit state passing (a `Cache` value holds the slot array
and the strategy's mutable state); panics are modelled by an `Option` layer
(`none` = the call panics instead of returning).
-/

namespace GranularCache

/-- The strategy contract (`CacheStrategy` trait, src/lib.rs lines 13-24).
`load` takes the strategy's mutable state (behind the cache's mutex in Rust)
plus a key and returns a result together with the updated state; the state
transition happens even when the result is an error, exactly as a Rust
`&mut self` method. `match_kv` is the pure conflict-check predicate. -/
structure Strategy (K V E σ : Type) where
  load : σ → K → Except E V × σ
  match_kv : K → V → Bool

/-- The cache (`Cache` struct, src/lib.rs lines 27-35): the boxed slot array
`entries` (each slot an `RwLock<Option<Val>>`, here just `Option V`), the
strategy's mutable state (`strategy: Mutex<S>` — the pure functions of the
strategy are passed separately to each operation), and the hasher, modelled
as a function from keys to the 64-bit hash value `finish()` would return
(taken mod 2^64 at use sites). -/
structure Cache (K V σ : Type) where
  hash : K → Nat
  entries : List (Option V)
  stratState : σ

variable {K V E R E2 σ : Type}

/-- `Cache::new` (src/lib.rs lines 46-52): `CAPACITY` copies of an empty
slot, plus the initial strategy state. -/
def Cache.new (hash : K → Nat) (capacity : Nat) (st : σ) : Cache K V σ :=
  { hash := hash, entries := List.replicate capacity none, stratState := st }

/-- `Cache::key` (src/lib.rs lines 55-60): the slot index
`h.finish() as usize % self.entries.len()`. `finish()` yields a `u64`, hence
the `% 2 ^ 64`. Rust's `%` on integers panics when the divisor is zero, so a
zero-length slot array yields `none` (= panic). -/
def Cache.key (c : Cache K V σ) (k : K) : Option Nat :=
  if c.entries.length = 0 then none
  else some (c.hash k % 2 ^ 64 % c.entries.length)

/-- `Cache::load` (src/lib.rs lines 92-99): lock the strategy, call
`strategy.load(key)`; on success `opt.replace(new)` overwrites the slot
contents, on failure `?` propagates the error before `replace` runs, leaving
the slot contents untouched (the strategy state is already mutated either
way). Returns (call result, new slot contents, new strategy state). -/
def Cache.load (S : Strategy K V E σ) (k : K) (opt : Option V) (st : σ) :
    Except E Unit × Option V × σ :=
  match S.load st k with
  | (Except.ok v, st2) => (Except.ok (), some v, st2)
  | (Except.error e, st2) => (Except.error e, opt, st2)

/-- The contents of slot `i` (the view a freshly acquired guard on
`entries[i]` gives; out-of-range defaults to empty, though every computed
index is in range — see the C9 theorem). -/
def Cache.slot (c : Cache K V σ) (i : Nat) : Option V :=
  c.entries.getD i none

/-- The reload test shared by `read` and `write` (src/lib.rs lines 67 and
85): `guard.is_none() || S::match_kv(key, guard.as_ref().unwrap())` — the
short-circuit `||` never reaches the `unwrap` when the slot is empty. -/
def needsLoad (S : Strategy K V E σ) (k : K) (g : Option V) : Bool :=
  match g with
  | none => true
  | some v => S.match_kv k v

/-- `Cache::read` (src/lib.rs lines 63-79), single-threaded. Take the slot's
read guard; if `guard.is_none() || S::match_kv(key, guard.as_ref().unwrap())`
then drop it, reacquire exclusively, run `Cache::load`, and reacquire a read
guard over the (same) slot to return. The returned triple is
(result carrying the returned guard's contents, updated cache, whether
`strategy.load` was invoked); the outer `Option` is `none` when the index
computation panics (capacity 0). -/
def Cache.read (S : Strategy K V E σ) (c : Cache K V σ) (k : K) :
    Option (Except E (Option V) × Cache K V σ × Bool) :=
  match c.key k with
  | none => none
  | some i =>
    if needsLoad S k (c.slot i) then
      match Cache.load S k (c.slot i) c.stratState with
      | (Except.ok _, slot2, st2) =>
        let c2 : Cache K V σ :=
          { c with entries := c.entries.set i slot2, stratState := st2 }
        some (Except.ok (c2.slot i), c2, true)
      | (Except.error e, slot2, st2) =>
        some (Except.error e,
          { c with entries := c.entries.set i slot2, stratState := st2 }, true)
    else
      some (Except.ok (c.slot i), c, false)

/-- `Cache::write` (src/lib.rs lines 82-89), single-threaded. Take the
slot's write guard directly; same emptiness/`match_kv` test as `read`; on
reload the guard (still held) now views the freshly stored contents. Result
triple as in `Cache.read`. -/
def Cache.write (S : Strategy K V E σ) (c : Cache K V σ) (k : K) :
    Option (Except E (Option V) × Cache K V σ × Bool) :=
  match c.key k with
  | none => none
  | some i =>
    if needsLoad S k (c.slot i) then
      match Cache.load S k (c.slot i) c.stratState with
      | (Except.ok _, slot2, st2) =>
        some (Except.ok slot2,
          { c with entries := c.entries.set i slot2, stratState := st2 }, true)
      | (Except.error e, slot2, st2) =>
        some (Except.error e,
          { c with entries := c.entries.set i slot2, stratState := st2 }, true)
    else
      some (Except.ok (c.slot i), c, false)

/-- `ReadRef::deref` (src/lib.rs lines 118-124): `self.0.as_ref().unwrap()`
panics exactly when the guarded slot is empty. -/
def ReadRef.derefPanics (g : Option V) : Bool := g.isNone

/-- Association-list lookup standing in for `HashMap` lookup (unique keys,
insertion order retained). -/
def alookup [DecidableEq K] : List (K × V) → K → Option V
  | [], _ => none
  | (k2, v) :: rest, k => if k2 = k then some v else alookup rest k

/-- In-place update of the value held under an existing key (the
`Entry::Occupied` → `get_mut` mutation path). -/
def aset [DecidableEq K] : List (K × V) → K → V → List (K × V)
  | [], _, _ => []
  | (k2, v2) :: rest, k, v =>
    if k2 = k then (k2, v) :: rest else (k2, v2) :: aset rest k v

/-- `WriteBatch` (src/write_batch.rs lines 14-20): a borrowed cache plus a
key → held-write-guard mapping; each held guard is modelled by the value it
currently views (always `some`, see `Cache.write`). -/
structure WriteBatch (K V σ : Type) where
  cache : Cache K V σ
  entries : List (K × V)

/-- `WriteBatch::new` (src/write_batch.rs lines 27-32). -/
def WriteBatch.new (c : Cache K V σ) : WriteBatch K V σ :=
  { cache := c, entries := [] }

/-- `WriteBatch::write` (src/write_batch.rs lines 43-58). The closure
`F: Fn(&mut Val) -> R` is modelled as `f : V → V × R` (mutation, result).
Occupied entry: apply `f` to the held guard's value, no cache call. Vacant:
`self.cache.write(&key)?`, insert the guard, apply `f` through it (the
`deref_mut` unwrap panicking — outer `none` — if the guard viewed an empty
slot). The `Bool` records whether the underlying cache was called. -/
def WriteBatch.write [DecidableEq K] (S : Strategy K V E σ)
    (wb : WriteBatch K V σ) (k : K) (f : V → V × R) :
    Option (Except E R × WriteBatch K V σ × Bool) :=
  match alookup wb.entries k with
  | some v =>
    some (Except.ok (f v).2, { wb with entries := aset wb.entries k (f v).1 },
      false)
  | none =>
    match Cache.write S wb.cache k with
    | none => none
    | some (Except.error e, c2, _) =>
      some (Except.error e, { wb with cache := c2 }, true)
    | some (Except.ok g, c2, _) =>
      match g with
      | none => none
      | some v =>
        some (Except.ok (f v).2,
          { cache := c2, entries := wb.entries ++ [(k, (f v).1)] }, true)

/-- The drain loop of `WriteBatch::flush_all`: feed each held guard to the
sink in order, stopping at the first error. Returns the result and the list
of values actually delivered to (i.e. invoked on) the sink. -/
def flushRun (sink : V → Except E2 Unit) : List (K × V) → Except E2 Unit × List V
  | [] => (Except.ok (), [])
  | (_, v) :: rest =>
    match sink v with
    | Except.ok _ =>
      let r := flushRun sink rest
      (r.1, v :: r.2)
    | Except.error e => (Except.error e, [v])

/-- `WriteBatch::flush_all` (src/write_batch.rs lines 64-72):
`mem::take(&mut self.entries)` empties the mapping up front, then the taken
entries are drained through `f`, aborting on the first error. Returns
(result, the batch as it stands when subsequently dropped, delivered
values). -/
def WriteBatch.flush_all (wb : WriteBatch K V σ) (sink : V → Except E2 Unit) :
    Except E2 Unit × WriteBatch K V σ × List V :=
  let r := flushRun sink wb.entries
  (r.1, { wb with entries := [] }, r.2)

/-- `Drop for WriteBatch` (src/write_batch.rs lines 75-84): dropping panics
exactly when `self.entries.len() != 0`. -/
def WriteBatch.dropPanics (wb : WriteBatch K V σ) : Bool :=
  wb.entries.length != 0

/-- The test strategy of the repository's own test suite (src/lib.rs lines
227-261): keys are `u32` (here `Nat`), values are strings (here
`List Char`), the state is the load counter, `load` always succeeds after
bumping the counter, and `match_kv` is `!val.starts_with(&key.to_string())`
— it returns `true` when the value does NOT start with the key's decimal
representation. -/
def spelled (k : Nat) : List Char :=
  (match k with
   | 1 => "1one" | 2 => "2two" | 3 => "3three"
   | 4 => "4four" | 5 => "5five" | _ => "unknown").toList

def TestStrategy : Strategy Nat (List Char) Unit Nat :=
  { load := fun st k => (Except.ok (spelled k), st + 1)
  , match_kv := fun k v => !((Nat.toDigits 10 k).isPrefixOf v) }

/-- The test hasher (src/lib.rs lines 263-287): `h(k) = k`. -/
def testHash : Nat → Nat := fun k => k

/-- A strategy whose `load` always fails, for exercising the error paths. -/
def FailStrategy : Strategy Nat (List Char) Unit Nat :=
  { load := fun st _ => (Except.error (), st + 1)
  , match_kv := fun k v => !((Nat.toDigits 10 k).isPrefixOf v) }

/-- One `read` step of the repository's own test scenario: the test strategy
and hasher, with panics defaulted to an error result (no call in the
scenario panics). -/
def readStep (c : Cache Nat (List Char) Nat) (k : Nat) :
    Except Unit (Option (List Char)) × Cache Nat (List Char) Nat × Bool :=
  (Cache.read TestStrategy c k).getD (Except.error (), c, false)

section Helpers

variable {α : Type}

theorem getD_set_self (l : List α) (i : Nat) (a d : α) (h : i < l.length) :
    (l.set i a).getD i d = a := by
  induction l generalizing i with
  | nil => simp at h
  | cons x xs ih =>
    cases i with
    | zero => rfl
    | succ n => exact ih n (Nat.lt_of_succ_lt_succ h)

theorem getD_set_ne (l : List α) (i j : Nat) (a d : α) (h : j ≠ i) :
    (l.set i a).getD j d = l.getD j d := by
  induction l generalizing i j with
  | nil => rfl
  | cons x xs ih =>
    cases i with
    | zero =>
      cases j with
      | zero => exact absurd rfl h
      | succ m => rfl
    | succ n =>
      cases j with
      | zero => rfl
      | succ m => exact ih n m (fun hc => h (by rw [hc]))

theorem set_getD_self (l : List α) (i : Nat) (d : α) (h : i < l.length) :
    l.set i (l.getD i d) = l := by
  induction l generalizing i with
  | nil => rfl
  | cons x xs ih =>
    cases i with
    | zero => rfl
    | succ n => simpa using ih n (Nat.lt_of_succ_lt_succ h)

theorem key_some_lt (c : Cache K V σ) (k : K) (i : Nat)
    (h : c.key k = some i) : i < c.entries.length := by
  unfold Cache.key at h
  split at h
  · exact absurd h (by simp)
  · next hz =>
    cases h
    exact Nat.mod_lt _ (Nat.pos_of_ne_zero hz)

theorem key_of_same_shape (c c2 : Cache K V σ) (k : K)
    (hh : c2.hash = c.hash) (hl : c2.entries.length = c.entries.length) :
    c2.key k = c.key k := by
  unfold Cache.key
  rw [hh, hl]

theorem slot_set_self (c : Cache K V σ) (i : Nat) (a : Option V) (st : σ)
    (h : i < c.entries.length) :
    (⟨c.hash, c.entries.set i a, st⟩ : Cache K V σ).slot i = a := by
  unfold Cache.slot
  exact getD_set_self c.entries i a none h

theorem slot_set_ne (c : Cache K V σ) (i j : Nat) (a : Option V) (st : σ)
    (h : j ≠ i) :
    (⟨c.hash, c.entries.set i a, st⟩ : Cache K V σ).slot j = c.slot j := by
  unfold Cache.slot
  exact getD_set_ne c.entries i j a none h

theorem entries_set_slot_self (c : Cache K V σ) (i : Nat)
    (h : i < c.entries.length) :
    c.entries.set i (c.slot i) = c.entries := by
  unfold Cache.slot
  exact set_getD_self c.entries i none h

end Helpers

/-- Claim C1 counterexample: in a cache whose slot 1 holds "1one", reading
key 1 performs NO load even though `match_kv(1, "1one")` — the claim's
`conforms` — is false. The code's reload condition is the opposite of the
claim's: it reloads when `match_kv` returns true (src/lib.rs line 67). -/
theorem c1_counterexample :
    ¬ (((Cache.read TestStrategy
          ⟨testHash, [none, some "1one".toList, none, none], 0⟩ 1).map
          (fun r => r.2.2) = some true) ↔
        ((⟨testHash, [none, some "1one".toList, none, none], 0⟩ :
            Cache Nat (List Char) Nat).slot 1 = none ∨
          TestStrategy.match_kv 1 "1one".toList = false)) := by decide

/-- Claim C1 (amended): `read(key)` invokes the strategy's load, and
`write(key)` runs the reload sub-protocol, exactly when the slot for
`hash(key) mod capacity` is empty or `match_kv(key, value)` returns TRUE for
the stored value — in the convention the cache and its test strategy
actually use, `match_kv` returning true signals that the value does not
belong to the key (the opposite polarity from the trait's doc comment). -/
theorem c1_reload_condition (S : Strategy K V E σ) (c : Cache K V σ) (k : K)
    (i : Nat) (hi : c.key k = some i) :
    ((Cache.read S c k).map (fun r => r.2.2) =
      some (needsLoad S k (c.slot i))) ∧
    ((Cache.write S c k).map (fun r => r.2.2) =
      some (needsLoad S k (c.slot i))) ∧
    (needsLoad S k (c.slot i) = true ↔
      (c.slot i = none ∨ ∃ v, c.slot i = some v ∧ S.match_kv k v = true)) := by
  refine ⟨?_, ?_, ?_⟩
  · unfold Cache.read
    rw [hi]
    cases hnl : needsLoad S k (c.slot i) with
    | true =>
      simp only [hnl, if_true]
      rcases hl : Cache.load S k (c.slot i) c.stratState with ⟨res, slot2, st2⟩
      cases res <;> simp
    | false => simp [hnl]
  · unfold Cache.write
    rw [hi]
    cases hnl : needsLoad S k (c.slot i) with
    | true =>
      simp only [hnl, if_true]
      rcases hl : Cache.load S k (c.slot i) c.stratState with ⟨res, slot2, st2⟩
      cases res <;> simp
    | false => simp [hnl]
  · unfold needsLoad
    cases hg : c.slot i with
    | none => simp
    | some v => simp

/-- Witness for the amended C1: key 1 against a slot already holding "1one"
triggers no load on either path (`match_kv` is false there, i.e. the value
belongs to the key). -/
theorem c1_witness :
    ((Cache.read TestStrategy
        ⟨testHash, [none, some "1one".toList, none, none], 0⟩ 1).map
        (fun r => r.2.2) = some false) ∧
    ((Cache.write TestStrategy
        ⟨testHash, [none, some "1one".toList, none, none], 0⟩ 1).map
        (fun r => r.2.2) = some false) :=
  ⟨(c1_reload_condition TestStrategy
      ⟨testHash, [none, some "1one".toList, none, none], 0⟩ 1 1 rfl).1,
   (c1_reload_condition TestStrategy
      ⟨testHash, [none, some "1one".toList, none, none], 0⟩ 1 1 rfl).2.1⟩

/-- Claim C2: a strategy load error during `read` or `write` is propagated
unchanged to the caller; the slot array is exactly what it was before the
call; the strategy took exactly the one failing load step (no retry). -/
theorem c2_load_error_propagation (S : Strategy K V E σ) (c : Cache K V σ)
    (k : K) (e : E) (c2 : Cache K V σ) (b : Bool) :
    (Cache.read S c k = some (Except.error e, c2, b) →
      S.load c.stratState k = (Except.error e, c2.stratState) ∧
      c2.entries = c.entries) ∧
    (Cache.write S c k = some (Except.error e, c2, b) →
      S.load c.stratState k = (Except.error e, c2.stratState) ∧
      c2.entries = c.entries) := by
  constructor
  · intro h
    unfold Cache.read at h
    cases hk : c.key k with
    | none => rw [hk] at h; exact absurd h (by simp)
    | some i =>
      rw [hk] at h
      have hilt : i < c.entries.length := key_some_lt c k i hk
      cases hnl : needsLoad S k (c.slot i) with
      | false => simp [hnl] at h
      | true =>
        simp only [hnl, if_true] at h
        unfold Cache.load at h
        rcases hl : S.load c.stratState k with ⟨res, st2⟩
        rw [hl] at h
        cases res with
        | ok v => simp at h
        | error e2 =>
          simp only [] at h
          cases h
          exact ⟨rfl, entries_set_slot_self c i hilt⟩
  · intro h
    unfold Cache.write at h
    cases hk : c.key k with
    | none => rw [hk] at h; exact absurd h (by simp)
    | some i =>
      rw [hk] at h
      have hilt : i < c.entries.length := key_some_lt c k i hk
      cases hnl : needsLoad S k (c.slot i) with
      | false => simp [hnl] at h
      | true =>
        simp only [hnl, if_true] at h
        unfold Cache.load at h
        rcases hl : S.load c.stratState k with ⟨res, st2⟩
        rw [hl] at h
        cases res with
        | ok v => simp at h
        | error e2 =>
          simp only [] at h
          cases h
          exact ⟨rfl, entries_set_slot_self c i hilt⟩

/-- Witness for C2: a read on an empty cache with an always-failing strategy
propagates the error after exactly one load attempt and leaves every slot
empty. -/
theorem c2_witness :
    FailStrategy.load 0 1 = (Except.error (), 1) ∧
    (⟨testHash, List.replicate 4 none, 1⟩ : Cache Nat (List Char) Nat).entries =
      (Cache.new testHash 4 0 : Cache Nat (List Char) Nat).entries :=
  (c2_load_error_propagation FailStrategy (Cache.new testHash 4 0) 1 ()
    ⟨testHash, List.replicate 4 none, 1⟩ true).1 rfl

/-- Claim C4: with capacity 4, identity hash and the spelled-word strategy,
the sequence read(1); read(1); read(5); read(1) returns "1one", "1one",
"5five", "1one", with cumulative load counts 1, 1, 2, 3; keys 1 and 5 both
map to slot 1 (5 mod 4 = 1). -/
theorem c4_concrete_collision_scenario :
    (Cache.new testHash 4 (0 : Nat) : Cache Nat (List Char) Nat).key 1 = some 1 ∧
    (Cache.new testHash 4 (0 : Nat) : Cache Nat (List Char) Nat).key 5 = some 1 ∧
    (let r1 := readStep (Cache.new testHash 4 0) 1
     let r2 := readStep r1.2.1 1
     let r3 := readStep r2.2.1 5
     let r4 := readStep r3.2.1 1
     r1.1 = Except.ok (some "1one".toList) ∧ r1.2.1.stratState = 1 ∧
     r2.1 = Except.ok (some "1one".toList) ∧ r2.2.1.stratState = 1 ∧
     r3.1 = Except.ok (some "5five".toList) ∧ r3.2.1.stratState = 2 ∧
     r4.1 = Except.ok (some "1one".toList) ∧ r4.2.1.stratState = 3) := by
  exact ⟨rfl, rfl, rfl, rfl, rfl, rfl, rfl, rfl, rfl, rfl⟩

/-- Claim C8: dropping a `WriteBatch` with a non-empty mapping panics;
dropping an empty one does not. -/
theorem c8_drop_discipline (wb : WriteBatch K V σ) :
    (wb.entries ≠ [] → WriteBatch.dropPanics wb = true) ∧
    (wb.entries = [] → WriteBatch.dropPanics wb = false) := by
  constructor
  · intro h
    unfold WriteBatch.dropPanics
    cases he : wb.entries with
    | nil => exact absurd he h
    | cons x xs => simp [he]
  · intro h
    unfold WriteBatch.dropPanics
    simp [h]

/-- Witness for C8: a one-entry batch panics on drop, an empty one does
not. -/
theorem c8_witness :
    WriteBatch.dropPanics
      (⟨Cache.new testHash 4 0, [(1, "1one".toList)]⟩ :
        WriteBatch Nat (List Char) Nat) = true ∧
    WriteBatch.dropPanics
      (⟨Cache.new testHash 4 0, []⟩ : WriteBatch Nat (List Char) Nat) = false :=
  ⟨(c8_drop_discipline _).1 (by simp), (c8_drop_discipline _).2 rfl⟩

/-- Claim C9: with positive capacity the computed slot index is always in
bounds (`0 ≤ i < capacity`); with capacity 0 the index computation is a
modulo by zero and `read`/`write` panic rather than return. -/
theorem c9_slot_index_bounds (S : Strategy K V E σ) (c : Cache K V σ) (k : K) :
    (c.entries.length ≠ 0 →
      ∃ i, c.key k = some i ∧ i < c.entries.length) ∧
    (c.entries.length = 0 →
      c.key k = none ∧ Cache.read S c k = none ∧ Cache.write S c k = none) := by
  constructor
  · intro h
    refine ⟨c.hash k % 2 ^ 64 % c.entries.length, ?_, ?_⟩
    · unfold Cache.key
      simp [h]
    · exact Nat.mod_lt _ (Nat.pos_of_ne_zero h)
  · intro h
    have hk : c.key k = none := by unfold Cache.key; simp [h]
    refine ⟨hk, ?_, ?_⟩
    · unfold Cache.read
      rw [hk]
    · unfold Cache.write
      rw [hk]

/-- Witness for C9: at capacity 4 the index for key 7 is in bounds; at
capacity 0 `read` panics. -/
theorem c9_witness :
    (∃ i, (Cache.new testHash 4 (0 : Nat) : Cache Nat (List Char) Nat).key 7 = some i ∧
      i < (Cache.new testHash 4 (0 : Nat) : Cache Nat (List Char) Nat).entries.length) ∧
    Cache.read TestStrategy (Cache.new testHash 0 0) 7 = none :=
  ⟨(c9_slot_index_bounds TestStrategy (Cache.new testHash 4 0) 7).1 (by decide),
   ((c9_slot_index_bounds TestStrategy (Cache.new testHash 0 0) 7).2 (by decide)).2.1⟩

/-- Claim C3: from a cache with an empty slot for key K, the first
`read(K)` triggers exactly one strategy load (the load flag is set and the
strategy state advances by exactly that one `load` step) and returns
exactly the value `load(K)` produced; afterwards, repeated `read(K)` with
no intervening write or colliding access is a pure hit — it returns the
same value, performs no load, and leaves the cache unchanged, so any number
of repeats triggers at most one load in total. Requires the strategy-
contract consistency of spec section 4.1: a freshly loaded value conforms
to its key (here, `match_kv k v = false`). -/
theorem c3_first_read_idempotent (S : Strategy K V E σ) (c : Cache K V σ)
    (k : K) (i : Nat) (v : V) (st2 : σ)
    (hi : c.key k = some i)
    (hempty : c.slot i = none)
    (hload : S.load c.stratState k = (Except.ok v, st2))
    (hcoh : S.match_kv k v = false) :
    Cache.read S c k =
      some (Except.ok (some v),
        ⟨c.hash, c.entries.set i (some v), st2⟩, true) ∧
    Cache.read S (⟨c.hash, c.entries.set i (some v), st2⟩ : Cache K V σ) k =
      some (Except.ok (some v),
        ⟨c.hash, c.entries.set i (some v), st2⟩, false) := by
  have hilt : i < c.entries.length := key_some_lt c k i hi
  constructor
  · unfold Cache.read
    rw [hi]
    have hnl : needsLoad S k (c.slot i) = true := by
      rw [hempty]; rfl
    simp only [hnl, if_true]
    unfold Cache.load
    rw [hload]
    simp only []
    rw [slot_set_self c i (some v) st2 hilt]
  · have hkey : (⟨c.hash, c.entries.set i (some v), st2⟩ : Cache K V σ).key k = some i := by
      rw [key_of_same_shape c ⟨c.hash, c.entries.set i (some v), st2⟩ k rfl
        (List.length_set _ _ _)]
      exact hi
    unfold Cache.read
    rw [hkey]
    have hs : (⟨c.hash, c.entries.set i (some v), st2⟩ : Cache K V σ).slot i = some v :=
      slot_set_self c i (some v) st2 hilt
    have hnl2 : needsLoad S k (some v) = false := by
      unfold needsLoad
      exact hcoh
    simp [hs, hnl2]

/-- Witness for C3: first read of key 1 on the empty test cache loads
"1one" once; the repeated read is a load-free fixpoint. -/
theorem c3_witness :
    Cache.read TestStrategy (Cache.new testHash 4 0) 1 =
      some (Except.ok (some "1one".toList),
        ⟨testHash, [none, some "1one".toList, none, none], 1⟩, true) ∧
    Cache.read TestStrategy
      (⟨testHash, [none, some "1one".toList, none, none], 1⟩ :
        Cache Nat (List Char) Nat) 1 =
      some (Except.ok (some "1one".toList),
        ⟨testHash, [none, some "1one".toList, none, none], 1⟩, false) :=
  c3_first_read_idempotent TestStrategy (Cache.new testHash 4 0) 1 1
    "1one".toList 1 rfl rfl rfl (by decide)

/-- Claim C5: when `read(key)` returns Ok, the returned guard views a
non-empty slot — so `ReadRef::deref`'s unwrap never panics — and the held
value conforms to the key (`match_kv key value = false`, the cache's actual
no-conflict convention). For the reload path this uses the strategy
contract's consistency (a freshly loaded value conforms, spec section 4.1),
exactly the assumption the code makes by not re-checking after a load. -/
theorem c5_read_ok_guard_safe (S : Strategy K V E σ) (c : Cache K V σ)
    (k : K) (g : Option V) (c2 : Cache K V σ) (b : Bool)
    (hcoh : ∀ v st2, S.load c.stratState k = (Except.ok v, st2) →
      S.match_kv k v = false)
    (h : Cache.read S c k = some (Except.ok g, c2, b)) :
    ∃ v, g = some v ∧ ReadRef.derefPanics g = false ∧
      S.match_kv k v = false := by
  unfold Cache.read at h
  cases hk : c.key k with
  | none => rw [hk] at h; exact absurd h (by simp)
  | some i =>
    rw [hk] at h
    have hilt : i < c.entries.length := key_some_lt c k i hk
    cases hnl : needsLoad S k (c.slot i) with
    | false =>
      simp only [hnl, if_false] at h
      unfold needsLoad at hnl
      cases hg : c.slot i with
      | none => rw [hg] at hnl; exact absurd hnl (by simp)
      | some v =>
        rw [hg] at hnl
        cases h
        exact ⟨v, hg, by rw [hg]; rfl, hnl⟩
    | true =>
      simp only [hnl, if_true] at h
      unfold Cache.load at h
      rcases hl : S.load c.stratState k with ⟨res, st2⟩
      rw [hl] at h
      cases res with
      | error e2 => simp at h
      | ok v =>
        simp only [] at h
        cases h
        refine ⟨v, ?_, ?_, hcoh v st2 hl⟩
        · exact slot_set_self c i (some v) st2 hilt
        · rw [slot_set_self c i (some v) st2 hilt]; rfl

/-- Witness for C5: a hit on slot 1 holding "1one" returns a non-empty,
conforming guard. -/
theorem c5_witness :
    ∃ v, (some "1one".toList : Option (List Char)) = some v ∧
      ReadRef.derefPanics (some "1one".toList) = false ∧
      TestStrategy.match_kv 1 v = false :=
  c5_read_ok_guard_safe TestStrategy
    ⟨testHash, [none, some "1one".toList, none, none], 0⟩ 1
    (some "1one".toList)
    ⟨testHash, [none, some "1one".toList, none, none], 0⟩ false
    (by
      intro v st2 hl
      injection hl with h1 h2
      injection h1 with h3
      rw [← h3]
      decide)
    rfl

/-- Claim C10 (implicit frame property): one `read(key)` or `write(key)`
call changes at most the slot at index `hash(key) mod capacity`; the length
of the slot array and the contents of every other slot are unchanged in
every outcome (hit, reload, or load error). -/
theorem c10_frame (S : Strategy K V E σ) (c : Cache K V σ) (k : K) (i : Nat)
    (hi : c.key k = some i) :
    (∀ r c2 b, Cache.read S c k = some (r, c2, b) →
      c2.entries.length = c.entries.length ∧
      ∀ j, j ≠ i → c2.slot j = c.slot j) ∧
    (∀ r c2 b, Cache.write S c k = some (r, c2, b) →
      c2.entries.length = c.entries.length ∧
      ∀ j, j ≠ i → c2.slot j = c.slot j) := by
  constructor
  · intro r c2 b h
    unfold Cache.read at h
    rw [hi] at h
    cases hnl : needsLoad S k (c.slot i) with
    | false =>
      simp only [hnl, if_false] at h
      cases h
      exact ⟨rfl, fun j hj => rfl⟩
    | true =>
      simp only [hnl, if_true] at h
      unfold Cache.load at h
      rcases hl : S.load c.stratState k with ⟨res, st2⟩
      rw [hl] at h
      cases res with
      | ok v =>
        simp only [] at h
        cases h
        exact ⟨List.length_set _ _ _, fun j hj => slot_set_ne c i j _ _ hj⟩
      | error e2 =>
        simp only [] at h
        cases h
        exact ⟨List.length_set _ _ _, fun j hj => slot_set_ne c i j _ _ hj⟩
  · intro r c2 b h
    unfold Cache.write at h
    rw [hi] at h
    cases hnl : needsLoad S k (c.slot i) with
    | false =>
      simp only [hnl, if_false] at h
      cases h
      exact ⟨rfl, fun j hj => rfl⟩
    | true =>
      simp only [hnl, if_true] at h
      unfold Cache.load at h
      rcases hl : S.load c.stratState k with ⟨res, st2⟩
      rw [hl] at h
      cases res with
      | ok v =>
        simp only [] at h
        cases h
        exact ⟨List.length_set _ _ _, fun j hj => slot_set_ne c i j _ _ hj⟩
      | error e2 =>
        simp only [] at h
        cases h
        exact ⟨List.length_set _ _ _, fun j hj => slot_set_ne c i j _ _ hj⟩

theorem alookup_aset_self [DecidableEq K] (l : List (K × V)) (k : K) (v0 v : V)
    (h : alookup l k = some v0) : alookup (aset l k v) k = some v := by
  induction l with
  | nil => simp [alookup] at h
  | cons p rest ih =>
    rcases p with ⟨k2, v2⟩
    by_cases hk : k2 = k
    · simp [alookup, aset, hk]
    · simp only [alookup] at h
      rw [if_neg hk] at h
      unfold aset
      rw [if_neg hk]
      show alookup ((k2, v2) :: aset rest k v) k = some v
      simp only [alookup]
      rw [if_neg hk]
      exact ih h

theorem alookup_append_of_none [DecidableEq K] (l m : List (K × V)) (k : K)
    (h : alookup l k = none) : alookup (l ++ m) k = alookup m k := by
  induction l with
  | nil => rfl
  | cons p rest ih =>
    rcases p with ⟨k2, v2⟩
    simp only [alookup] at h
    by_cases hk : k2 = k
    · rw [if_pos hk] at h; exact absurd h (by simp)
    · rw [if_neg hk] at h
      show alookup ((k2, v2) :: (rest ++ m)) k = alookup m k
      simp only [alookup]
      rw [if_neg hk]
      exact ih h

/-- Claim C6: a `WriteBatch.write(key, f)` on a key already present in the
batch's mapping applies `f` to the already-held guard's value and returns
`f`'s result with NO call into the cache (the cache, and hence its locks
and strategy, are untouched and the cache-call flag is false); moreover any
successful `write` leaves the key present in the mapping, so repeating
`write` on one key within a batch triggers at most one underlying cache
load for it. -/
theorem c6_batch_same_key [DecidableEq K] (S : Strategy K V E σ)
    (wb : WriteBatch K V σ) (k : K) (f : V → V × R) :
    (∀ v, alookup wb.entries k = some v →
      WriteBatch.write S wb k f =
        some (Except.ok (f v).2,
          ⟨wb.cache, aset wb.entries k (f v).1⟩, false)) ∧
    (∀ r wb2 b, WriteBatch.write S wb k f = some (Except.ok r, wb2, b) →
      ∃ v2, alookup wb2.entries k = some v2) := by
  constructor
  · intro v hv
    unfold WriteBatch.write
    rw [hv]
  · intro r wb2 b h
    unfold WriteBatch.write at h
    cases halo : alookup wb.entries k with
    | some v =>
      rw [halo] at h
      simp only [Option.some.injEq] at h
      cases h
      exact ⟨(f v).1, alookup_aset_self wb.entries k v (f v).1 halo⟩
    | none =>
      rw [halo] at h
      cases hw : Cache.write S wb.cache k with
      | none => rw [hw] at h; exact absurd h (by simp)
      | some t =>
        rw [hw] at h
        rcases t with ⟨res, c2, bb⟩
        cases res with
        | error e => simp at h
        | ok g =>
          cases g with
          | none => simp at h
          | some v =>
            simp only [Option.some.injEq] at h
            cases h
            refine ⟨(f v).1, ?_⟩
            rw [alookup_append_of_none wb.entries [(k, (f v).1)] k halo]
            simp [alookup]

/-- Witness for C6: re-writing key 1, already held in the batch, applies
the mutation to the held value and returns the closure's result without
touching the cache. -/
theorem c6_witness :
    WriteBatch.write TestStrategy
      (⟨Cache.new testHash 4 0, [(1, "1one".toList)]⟩ :
        WriteBatch Nat (List Char) Nat)
      1 (fun v => (v ++ ['x'], v.length)) =
    some (Except.ok 4,
      ⟨Cache.new testHash 4 0, [(1, ("1one".toList ++ ['x']))]⟩, false) :=
  (c6_batch_same_key TestStrategy
    ⟨Cache.new testHash 4 0, [(1, "1one".toList)]⟩ 1
    (fun v => (v ++ ['x'], v.length))).1 "1one".toList rfl

theorem flushRun_of_ok (sink : V → Except E2 Unit) (l : List (K × V))
    (h : (flushRun (K := K) sink l).1 = Except.ok ()) :
    (flushRun (K := K) sink l).2 = l.map Prod.snd ∧
    ∀ v ∈ l.map Prod.snd, sink v = Except.ok () := by
  induction l with
  | nil => exact ⟨rfl, by simp⟩
  | cons p rest ih =>
    rcases p with ⟨k2, v⟩
    unfold flushRun at h ⊢
    cases hs : sink v with
    | error e => rw [hs] at h; simp at h
    | ok u =>
      rw [hs] at h
      simp only [] at h ⊢
      rcases ih h with ⟨h1, h2⟩
      refine ⟨by simp [h1], ?_⟩
      intro w hw
      rcases List.mem_cons.mp hw with hw | hw
      · cases hw; cases u; exact hs
      · exact h2 w hw

theorem flushRun_of_error (sink : V → Except E2 Unit) (l : List (K × V))
    (e : E2) (h : (flushRun (K := K) sink l).1 = Except.error e) :
    ∃ pre v post, l.map Prod.snd = pre ++ v :: post ∧
      (flushRun (K := K) sink l).2 = pre ++ [v] ∧
      sink v = Except.error e ∧ ∀ u ∈ pre, sink u = Except.ok () := by
  induction l with
  | nil => exact absurd h (by simp [flushRun])
  | cons p rest ih =>
    rcases p with ⟨k2, v⟩
    unfold flushRun at h ⊢
    cases hs : sink v with
    | error e2 =>
      rw [hs] at h
      simp only [] at h
      cases h
      exact ⟨[], v, rest.map Prod.snd, rfl, rfl, hs, by simp⟩
    | ok u =>
      rw [hs] at h
      simp only [] at h ⊢
      rcases ih h with ⟨pre, w, post, h1, h2, h3, h4⟩
      refine ⟨v :: pre, w, post, by simp [h1], by simp [h2], h3, ?_⟩
      intro u2 hu2
      rcases List.mem_cons.mp hu2 with hu2 | hu2
      · cases hu2; cases u; exact hs
      · exact h4 u2 hu2

/-- Claim C7: `flush_all(sink)` always leaves the batch's mapping empty
(`mem::take` empties it before draining), so dropping the batch afterwards
never panics, even after a failed flush. On success every held guard was
delivered to the sink exactly once (the delivered list is exactly the held
values). On a sink error, the first error is propagated: the delivered
list is the successful prefix plus the one failing guard, and the remaining
guards are never delivered. -/
theorem c7_flush_all_spec (wb : WriteBatch K V σ) (sink : V → Except E2 Unit)
    (r : Except E2 Unit) (wb2 : WriteBatch K V σ) (ds : List V)
    (h : WriteBatch.flush_all wb sink = (r, wb2, ds)) :
    wb2.entries = [] ∧ WriteBatch.dropPanics wb2 = false ∧
    (r = Except.ok () → ds = wb.entries.map Prod.snd ∧
      ∀ v ∈ ds, sink v = Except.ok ()) ∧
    (∀ e, r = Except.error e → ∃ pre v post,
      wb.entries.map Prod.snd = pre ++ v :: post ∧ ds = pre ++ [v] ∧
      sink v = Except.error e ∧ ∀ u ∈ pre, sink u = Except.ok ()) := by
  unfold WriteBatch.flush_all at h
  cases h
  refine ⟨rfl, rfl, ?_, ?_⟩
  · intro hr
    rcases flushRun_of_ok sink wb.entries hr with ⟨h1, h2⟩
    exact ⟨h1, by rw [h1]; exact h2⟩
  · intro e hr
    exact flushRun_of_error sink wb.entries e hr

/-- Witness for C7: flushing a two-entry batch through an always-ok sink
delivers exactly the two held values. -/
theorem c7_witness :
    ["1one".toList, "2two".toList] =
      ([(1, "1one".toList), (2, "2two".toList)] :
        List (Nat × List Char)).map Prod.snd ∧
    ∀ v ∈ ["1one".toList, "2two".toList],
      (fun _ : List Char => (Except.ok () : Except Unit Unit)) v =
        Except.ok () :=
  ((c7_flush_all_spec
    ⟨Cache.new testHash 4 0, [(1, "1one".toList), (2, "2two".toList)]⟩
    (fun _ => Except.ok ()) (Except.ok ())
    ⟨Cache.new testHash 4 0, []⟩ ["1one".toList, "2two".toList]
    rfl).2.2.1) rfl

/-- Witness for C10: the first read of key 1 on an empty capacity-4 cache
loads into slot 1 and leaves the other three slots untouched. -/
theorem c10_witness :
    (⟨testHash, [none, some "1one".toList, none, none], 1⟩ :
      Cache Nat (List Char) Nat).entries.length =
      (Cache.new testHash 4 (0 : Nat) : Cache Nat (List Char) Nat).entries.length ∧
    ∀ j, j ≠ 1 →
      (⟨testHash, [none, some "1one".toList, none, none], 1⟩ :
        Cache Nat (List Char) Nat).slot j =
      (Cache.new testHash 4 (0 : Nat) : Cache Nat (List Char) Nat).slot j :=
  (c10_frame TestStrategy (Cache.new testHash 4 0) 1 1 rfl).1
    (Except.ok (some "1one".toList))
    ⟨testHash, [none, some "1one".toList, none, none], 1⟩ true rfl

end GranularCache
